import Mathlib

/-!
Shallow embedding of the Maple Street appointment-scheduling client
(`src/frontend/src/App.jsx`).

The component's logic is synchronous and small: two pure helpers
(`toLocalISO`, `displayLocal`), a validation-and-submit routine (`book`),
a response handler for the POST, and a list loader (`load`).  Network and
JSON-parsing effects are modelled by passing their outcomes in as data;
JavaScript built-ins used by the code (`Date`, `Number`, `JSON.stringify`)
are embedded below with integer/rational arithmetic.
-/

namespace Maple

/-- A JavaScript `Date` value: its epoch value in milliseconds
(`valueOf()` / numeric coercion) together with the host timezone offset in
minutes as returned by `getTimezoneOffset()` (UTC minus local time). -/
structure JsDate where
  epochMillis : Int
  tzOffsetMin : Int
deriving DecidableEq, Repr

/-- Numeric coercion of a nullable `Date` as used by JS `<` / `<=`
comparisons: `null` coerces to `0`, a `Date` to its epoch milliseconds. -/
def jsValueOf : Option JsDate → Int
  | none => 0
  | some d => d.epochMillis

/-- A JavaScript number as far as this client observes it: either `NaN`
or an exact value (the mechanic ids and timestamps in play are small
integers, far below the 2^53 double-precision bound, so exact rationals
model the arithmetic faithfully). -/
inductive JsNum where
  | nan : JsNum
  | val : ℚ → JsNum
deriving DecidableEq, Repr

/-- JSON value, the image of `JSON.parse` / the input of `JSON.stringify`. -/
inductive Json where
  | null : Json
  | bool : Bool → Json
  | num : ℚ → Json
  | str : String → Json
  | arr : List Json → Json
  | obj : List (String × Json) → Json

/-- `JSON.stringify` on a number field: `NaN` serializes as `null`. -/
def jsNumJson : JsNum → Json
  | .nan => .null
  | .val q => .num q

/- ### JS `Number(string)` -/

/-- Whitespace as JS `String#trim` strips it (the forms that can occur in
a text input: space, tab, newline, carriage return, form feed, vertical
tab, no-break space). -/
def jsIsWhitespace (c : Char) : Bool :=
  c = ' ' || c = '\t' || c = '\n' || c = '\r' ||
    c = '\x0c' || c = '\x0b' || c = ' '

/-- JS `String#trim`: strip leading and trailing whitespace. -/
def jsTrim (s : String) : String :=
  ⟨(((s.data.dropWhile jsIsWhitespace).reverse.dropWhile jsIsWhitespace).reverse)⟩

/-- Numeric value of a list of decimal digits. -/
def natOfDigits (cs : List Char) : Nat :=
  cs.foldl (fun n c => n * 10 + (c.toNat - '0'.toNat)) 0

/-- Split a leading run of decimal digits. -/
def splitDigits (cs : List Char) : List Char × List Char :=
  cs.span (fun c => c.isDigit)

/-- Parse a signed decimal integer (exponent part of a numeric literal). -/
def parseSignedInt (cs : List Char) : Option (Int × List Char) :=
  let core : List Char → Option (Nat × List Char) := fun l =>
    let p := splitDigits l
    if p.1.isEmpty then none else some (natOfDigits p.1, p.2)
  match cs with
  | '+' :: rest => (core rest).map (fun p => ((p.1 : Int), p.2))
  | '-' :: rest => (core rest).map (fun p => (-(p.1 : Int), p.2))
  | _ => (core cs).map (fun p => ((p.1 : Int), p.2))

/-- Parse an unsigned decimal mantissa: `digits`, `digits.`, `digits.digits`
or `.digits`. -/
def parseMantissa (cs : List Char) : Option (ℚ × List Char) :=
  let p := splitDigits cs
  match p.2 with
  | '.' :: rest =>
      let q := splitDigits rest
      if p.1.isEmpty && q.1.isEmpty then none
      else some ((natOfDigits p.1 : ℚ) + (natOfDigits q.1 : ℚ) / (10 : ℚ) ^ q.1.length, q.2)
  | _ => if p.1.isEmpty then none else some ((natOfDigits p.1 : ℚ), p.2)

/-- Parse an optional exponent part `e`/`E` followed by a signed integer. -/
def parseExponent (cs : List Char) : Option (Int × List Char) :=
  match cs with
  | 'e' :: rest => parseSignedInt rest
  | 'E' :: rest => parseSignedInt rest
  | _ => some (0, cs)

/-- Parse a complete signed decimal numeric literal. -/
def parseNumericLiteral (cs : List Char) : Option ℚ :=
  let signed : ℚ × List Char :=
    match cs with
    | '+' :: rest => (1, rest)
    | '-' :: rest => (-1, rest)
    | _ => (1, cs)
  match parseMantissa signed.2 with
  | none => none
  | some (m, r) =>
      match parseExponent r with
      | none => none
      | some (e, r2) => if r2.isEmpty then some (signed.1 * m * (10 : ℚ) ^ e) else none

/-- Embedding of the JS `Number` conversion on strings, on the decimal
fragment of its grammar: whitespace is trimmed, the empty string converts
to `0`, a signed decimal literal (optional fraction and exponent) converts
to its value, and anything else (including the hex/binary/octal and
`Infinity` forms, which this application never feeds it) is `NaN`. -/
def jsNumber (s : String) : JsNum :=
  let t := jsTrim s
  if t = "" then .val 0
  else
    match parseNumericLiteral t.data with
    | some q => .val q
    | none => .nan

/- ### JS `Date#toISOString` -/

/-- Left-pad the decimal representation of `n` with zeros to width `w`. -/
def padNum (w n : Nat) : String :=
  let s := toString n
  ⟨List.replicate (w - s.length) '0'⟩ ++ s

/-- Proleptic-Gregorian civil date (year, month, day) of a day count
relative to 1970-01-01 (Howard Hinnant's `civil_from_days`). -/
def civilFromDays (z0 : Int) : Int × Nat × Nat :=
  let z := z0 + 719468
  let era := Int.fdiv z 146097
  let doe := (z - era * 146097).toNat
  let yoe := (doe - doe / 1460 + doe / 36524 - doe / 146096) / 365
  let doy := doe - (365 * yoe + yoe / 4 - yoe / 100)
  let mp := (5 * doy + 2) / 153
  let da := doy - (153 * mp + 2) / 5 + 1
  let mo := if mp < 10 then mp + 3 else mp - 9
  ((yoe : Int) + era * 400 + (if mo ≤ 2 then 1 else 0), mo, da)

/-- Day count relative to 1970-01-01 of a civil date
(Howard Hinnant's `days_from_civil`). -/
def daysFromCivil (y0 : Int) (m d : Nat) : Int :=
  let y := y0 - (if m ≤ 2 then 1 else 0)
  let era := Int.fdiv y 400
  let yoe := (y - era * 400).toNat
  let mp := if m > 2 then m - 3 else m + 9
  let doy := (153 * mp + 2) / 5 + d - 1
  let doe := yoe * 365 + yoe / 4 - yoe / 100 + doy
  era * 146097 + (doe : Int) - 719468

/-- Embedding of `Date#toISOString`: the UTC calendar reading of an epoch
millisecond value, printed as `YYYY-MM-DDTHH:MM:SS.sssZ` (with the
expanded `±YYYYYY` year form outside 0000–9999, as in ECMA-262). -/
def millisToISO (m : Int) : String :=
  let days := Int.fdiv m 86400000
  let ms := (m - days * 86400000).toNat
  let c := civilFromDays days
  let y := c.1
  let yearStr :=
    if 0 ≤ y ∧ y ≤ 9999 then padNum 4 y.toNat
    else if y < 0 then "-" ++ padNum 6 (-y).toNat
    else "+" ++ padNum 6 y.toNat
  yearStr ++ "-" ++ padNum 2 c.2.1 ++ "-" ++ padNum 2 c.2.2 ++ "T" ++
    padNum 2 (ms / 3600000) ++ ":" ++ padNum 2 (ms % 3600000 / 60000) ++ ":" ++
    padNum 2 (ms % 60000 / 1000) ++ "." ++ padNum 3 (ms % 1000) ++ "Z"

/-- Epoch milliseconds of a civil date-time read as UTC. -/
def utcMillisOf (y : Int) (mo da h mi s : Nat) : Int :=
  daysFromCivil y mo da * 86400000 + ((h * 3600000 + mi * 60000 + s * 1000 : Nat) : Int)

/-- A `Date` whose local wall-clock reading is the given civil date-time on
a host whose `getTimezoneOffset()` is `o` minutes: since the offset is UTC
minus local time, its epoch value is the UTC reading of the wall-clock
values plus `o` minutes. -/
def mkLocalDate (y : Int) (mo da h mi s : Nat) (o : Int) : JsDate :=
  ⟨utcMillisOf y mo da h mi s + o * 60000, o⟩

/-- `toLocalISO` from App.jsx lines 8–12: a falsy (null) input gives `""`;
otherwise the timezone offset (in ms) is subtracted from the epoch value
and the result is ISO-formatted and sliced to its first 19 code units
(`YYYY-MM-DDTHH:MM:SS`). -/
def toLocalISO : Option JsDate → String
  | none => ""
  | some dt => ⟨(millisToISO (dt.epochMillis - dt.tzOffsetMin * 60000)).data.take 19⟩

/- ### `displayLocal` -/

/-- JS `String#replace` with the one-character pattern `'T'`: replace the
first occurrence (only) of `'T'` by a space. -/
def replaceFirstTAux : List Char → List Char
  | [] => []
  | c :: cs => if c = 'T' then ' ' :: cs else c :: replaceFirstTAux cs

/-- `displayLocal` from App.jsx lines 14–17: a falsy input (null or the
empty string) renders as the literal `"Invalid Date"`; otherwise the first
`'T'` is replaced by a space and the string is sliced to its first 16 code
units. -/
def displayLocal : Option String → String
  | none => "Invalid Date"
  | some s => if s = "" then "Invalid Date" else ⟨(replaceFirstTAux s.data).take 16⟩

/- ### Form state and `book` -/

/-- The five pieces of draft form state (`customer`, `vehicle`, `mechanic`,
`start`, `end` in App.jsx lines 22–26; `end` is a Lean keyword, hence
`endD`).  Text inputs are strings, the date pickers hold a `Date` or null. -/
structure Draft where
  customer : String
  vehicle : String
  mechanic : String
  start : Option JsDate
  endD : Option JsDate
deriving DecidableEq, Repr

/-- The initial draft: three empty strings and two nulls
(`useState('')` ×3, `useState(null)` ×2). -/
def emptyDraft : Draft := ⟨"", "", "", none, none⟩

/-- The JSON body `book()` builds for its POST (App.jsx lines 62–68). -/
structure Payload where
  customerName : String
  vehicleReg : String
  mechanicId : JsNum
  startTime : String
  endTime : String
deriving DecidableEq, Repr

/-- `JSON.stringify` of the payload object, field order as constructed. -/
def payloadJson (p : Payload) : Json :=
  .obj [("customerName", .str p.customerName),
        ("vehicleReg", .str p.vehicleReg),
        ("mechanicId", jsNumJson p.mechanicId),
        ("startTime", .str p.startTime),
        ("endTime", .str p.endTime)]

/-- What `book()` does before any network activity: either it rejects with
a `toast.error` message and returns (no fetch is issued), or it issues the
single POST with the given payload. -/
inductive BookAction where
  | reject : String → BookAction
  | post : Payload → BookAction
deriving DecidableEq, Repr

/-- The synchronous validation-and-submit part of `book()` (App.jsx lines
42–75), with `new Date()` passed in as `now`.  The three checks run in
source order with first-failure-wins; JS falsiness of the five fields is
the empty string for the text inputs and null for the dates, and the date
comparisons coerce via `valueOf` (epoch milliseconds, null as 0 — never
reached past the first check). -/
def book (d : Draft) (now : JsDate) : BookAction :=
  if d.customer = "" || d.vehicle = "" || d.mechanic = "" ||
      d.start.isNone || d.endD.isNone then
    .reject "Please fill all fields"
  else if jsValueOf d.start < now.epochMillis then
    .reject "Cannot schedule in the past"
  else if jsValueOf d.endD ≤ jsValueOf d.start then
    .reject "End time must be after start time"
  else
    .post { customerName := d.customer
            vehicleReg := d.vehicle
            mechanicId := jsNumber d.mechanic
            startTime := toLocalISO d.start
            endTime := toLocalISO d.endD }

/- ### Response handling -/

/-- An HTTP response as `book()` observes it: status code and body text
(`await res.text()`). -/
structure HttpResponse where
  status : Nat
  text : String
deriving DecidableEq, Repr

/-- `Response#ok`: true exactly when the status is in the 2xx range. -/
def responseOk (r : HttpResponse) : Bool :=
  200 ≤ r.status && r.status ≤ 299

/-- A toast notification shown to the user. -/
inductive Notification where
  | success : String → Notification
  | error : String → Notification
deriving DecidableEq, Repr

/-- Outcome of handling the POST response: the draft state afterwards, the
notification shown, and whether `load()` is re-invoked. -/
structure BookOutcome where
  draft : Draft
  notification : Notification
  reload : Bool
deriving DecidableEq, Repr

/-- The response branch of `book()` (App.jsx lines 77–90): on `res.ok` a
success toast is shown, all five draft fields are reset and `load()` runs;
otherwise `toast.error(txt || "Error booking appointment")` is shown (the
body text when non-empty, the generic message when empty) and the draft is
untouched. -/
def handleBookResponse (d : Draft) (res : HttpResponse) : BookOutcome :=
  if responseOk res then
    ⟨emptyDraft, .success "Appointment booked", true⟩
  else
    ⟨d, .error (if res.text = "" then "Error booking appointment" else res.text), false⟩

/- ### `load` -/

/-- Outcome of `fetch(API)` followed by `res.json()` inside `load()`'s
`try` block: the fetch itself throws, the body fails to parse as JSON
(`res.json()` throws), or parsing yields a JSON value.  The HTTP status is
carried so that theorems can quantify over it. -/
inductive LoadEvent where
  | fetchExn : LoadEvent
  | jsonExn : Nat → LoadEvent
  | jsonOk : Nat → Json → LoadEvent

/-- Outcome of one `load()` invocation: the appointments state afterwards,
whether `console.error` was called, and any notification shown. -/
structure LoadResult where
  appointments : Json
  loggedError : Bool
  userNotification : Option Notification

/-- `load()` from App.jsx lines 28–36 over the current appointments state:
on any exception the error is logged and nothing else happens; when
`res.json()` yields a value it replaces the whole list via
`setAppointments(data)`.  The status field of the response is never
consulted, and no toast is ever shown on this path. -/
def load (current : Json) : LoadEvent → LoadResult
  | .fetchExn => ⟨current, true, none⟩
  | .jsonExn _ => ⟨current, true, none⟩
  | .jsonOk _ data => ⟨data, false, none⟩

end Maple

namespace Maple

/-! ## Helper lemmas -/

lemma replaceFirstTAux_of_not_mem {l : List Char} (h : 'T' ∉ l) :
    replaceFirstTAux l = l := by
  induction l with
  | nil => rfl
  | cons c cs ih =>
      have hc : c ≠ 'T' := fun hc => h (hc ▸ List.mem_cons_self c cs)
      have hcs : 'T' ∉ cs := fun hm => h (List.mem_cons_of_mem c hm)
      simp [replaceFirstTAux, hc, ih hcs]

lemma replaceFirstTAux_append {a : List Char} (b : List Char) (h : 'T' ∉ a) :
    replaceFirstTAux (a ++ 'T' :: b) = a ++ ' ' :: b := by
  induction a with
  | nil => simp [replaceFirstTAux]
  | cons c cs ih =>
      have hc : c ≠ 'T' := fun hc => h (hc ▸ List.mem_cons_self c cs)
      have hcs : 'T' ∉ cs := fun hm => h (List.mem_cons_of_mem c hm)
      simp [replaceFirstTAux, hc, ih hcs]

/-! ## Claims -/

/-- C1: for every draft that passes all three validations, `book` issues
the single POST whose payload coerces the mechanic string with `Number`
and serializes both timestamps with `toLocalISO`; and `toLocalISO`
preserves the selected wall-clock values for any host UTC offset: a start
of local 2024-01-01 14:00 serializes to `"2024-01-01T14:00:00"` whatever
`getTimezoneOffset()` returns. -/
theorem book_valid_posts_wallclock_payload :
    (∀ (d : Draft) (now s e : JsDate),
        d.start = some s → d.endD = some e →
        d.customer ≠ "" → d.vehicle ≠ "" → d.mechanic ≠ "" →
        ¬ s.epochMillis < now.epochMillis →
        ¬ e.epochMillis ≤ s.epochMillis →
        book d now = .post ⟨d.customer, d.vehicle, jsNumber d.mechanic,
                            toLocalISO d.start, toLocalISO d.endD⟩) ∧
    (∀ o : Int,
        toLocalISO (some (mkLocalDate 2024 1 1 14 0 0 o)) = "2024-01-01T14:00:00") := by
  constructor
  · intro d now s e hs he hc hv hm hpast hord
    simp [book, hs, he, jsValueOf, hc, hv, hm, hpast, hord]
  · intro o
    show (⟨(millisToISO (utcMillisOf 2024 1 1 14 0 0 + o * 60000 - o * 60000)).data.take 19⟩ :
        String) = "2024-01-01T14:00:00"
    rw [add_sub_cancel_right]
    rfl

/-- C1 witness: a concrete valid draft on a host at UTC+5:30
(`getTimezoneOffset() = 330`... offsets are signed; 330 means UTC−5:30,
the sign is irrelevant to the cancellation). -/
theorem book_valid_posts_wallclock_payload_witness :
    book ⟨"Ann", "KA-01-1234", "3", some ⟨1704117600000, 330⟩, some ⟨1704121200000, 330⟩⟩
        ⟨1704000000000, 330⟩ =
      .post ⟨"Ann", "KA-01-1234", jsNumber "3",
             toLocalISO (some ⟨1704117600000, 330⟩), toLocalISO (some ⟨1704121200000, 330⟩)⟩ ∧
    toLocalISO (some (mkLocalDate 2024 1 1 14 0 0 330)) = "2024-01-01T14:00:00" :=
  ⟨book_valid_posts_wallclock_payload.1
      ⟨"Ann", "KA-01-1234", "3", some ⟨1704117600000, 330⟩, some ⟨1704121200000, 330⟩⟩
      ⟨1704000000000, 330⟩ ⟨1704117600000, 330⟩ ⟨1704121200000, 330⟩
      rfl rfl (by decide) (by decide) (by decide) (by decide) (by decide),
   book_valid_posts_wallclock_payload.2 330⟩

/-- C2: whenever any of the five draft fields is empty (text inputs) or
null (date pickers), `book` rejects with exactly
`"Please fill all fields"` and issues no network call. -/
theorem book_missing_field_rejects (d : Draft) (now : JsDate)
    (h : d.customer = "" ∨ d.vehicle = "" ∨ d.mechanic = "" ∨
         d.start = none ∨ d.endD = none) :
    book d now = .reject "Please fill all fields" := by
  unfold book
  rcases h with h | h | h | h | h <;> simp [h]

/-- C2 witness: the initial empty draft is rejected. -/
theorem book_missing_field_rejects_witness :
    book emptyDraft ⟨0, 0⟩ = .reject "Please fill all fields" :=
  book_missing_field_rejects emptyDraft ⟨0, 0⟩ (Or.inl rfl)

/-- C3: with all five fields present and `start` strictly before `now`,
`book` rejects with exactly `"Cannot schedule in the past"` and issues no
network call — with no hypothesis at all on how `end` compares to `start`,
since this check runs first. -/
theorem book_past_start_rejects (d : Draft) (now s e : JsDate)
    (hs : d.start = some s) (he : d.endD = some e)
    (hc : d.customer ≠ "") (hv : d.vehicle ≠ "") (hm : d.mechanic ≠ "")
    (hpast : s.epochMillis < now.epochMillis) :
    book d now = .reject "Cannot schedule in the past" := by
  simp [book, hs, he, jsValueOf, hc, hv, hm, hpast]

/-- C3 witness: a draft one minute in the past whose `end` is after
`start` (so the ordering check alone would pass) is still rejected as
past. -/
theorem book_past_start_rejects_witness :
    book ⟨"Ann", "KA-01-1234", "3", some ⟨1703999940000, 0⟩, some ⟨1704121200000, 0⟩⟩
        ⟨1704000000000, 0⟩ = .reject "Cannot schedule in the past" :=
  book_past_start_rejects
    ⟨"Ann", "KA-01-1234", "3", some ⟨1703999940000, 0⟩, some ⟨1704121200000, 0⟩⟩
    ⟨1704000000000, 0⟩ ⟨1703999940000, 0⟩ ⟨1704121200000, 0⟩
    rfl rfl (by decide) (by decide) (by decide) (by decide)

/-- C4: with all five fields present, `start` not in the past, and
`end ≤ start` (equality included), `book` rejects with exactly
`"End time must be after start time"` and issues no network call. -/
theorem book_end_not_after_start_rejects (d : Draft) (now s e : JsDate)
    (hs : d.start = some s) (he : d.endD = some e)
    (hc : d.customer ≠ "") (hv : d.vehicle ≠ "") (hm : d.mechanic ≠ "")
    (hnotpast : ¬ s.epochMillis < now.epochMillis)
    (hord : e.epochMillis ≤ s.epochMillis) :
    book d now = .reject "End time must be after start time" := by
  simp [book, hs, he, jsValueOf, hc, hv, hm, hnotpast, hord]

/-- C4 witness: `end` exactly equal to `start` is rejected. -/
theorem book_end_not_after_start_rejects_witness :
    book ⟨"Ann", "KA-01-1234", "3", some ⟨1704117600000, 0⟩, some ⟨1704117600000, 0⟩⟩
        ⟨1704000000000, 0⟩ = .reject "End time must be after start time" :=
  book_end_not_after_start_rejects
    ⟨"Ann", "KA-01-1234", "3", some ⟨1704117600000, 0⟩, some ⟨1704117600000, 0⟩⟩
    ⟨1704000000000, 0⟩ ⟨1704117600000, 0⟩ ⟨1704117600000, 0⟩
    rfl rfl (by decide) (by decide) (by decide) (by decide) (by decide)

/-- C5: on any 2xx response to the POST, a success notification is shown,
the draft is reset to three empty strings and two nulls, and the
appointment list is refetched. -/
theorem book_success_resets_draft (d : Draft) (res : HttpResponse)
    (h1 : 200 ≤ res.status) (h2 : res.status ≤ 299) :
    handleBookResponse d res =
      ⟨⟨"", "", "", none, none⟩, .success "Appointment booked", true⟩ := by
  simp [handleBookResponse, responseOk, emptyDraft, h1, h2]

/-- C5 witness: a 201 response to a filled-in draft. -/
theorem book_success_resets_draft_witness :
    handleBookResponse ⟨"Ann", "KA-01-1234", "3", some ⟨1, 0⟩, some ⟨2, 0⟩⟩ ⟨201, ""⟩ =
      ⟨⟨"", "", "", none, none⟩, .success "Appointment booked", true⟩ :=
  book_success_resets_draft ⟨"Ann", "KA-01-1234", "3", some ⟨1, 0⟩, some ⟨2, 0⟩⟩ ⟨201, ""⟩
    (by decide) (by decide)

/-- C6: on any non-2xx response, the notification is the response body
text when non-empty and the generic message otherwise, and the draft is
left entirely unchanged; in particular body `"Mechanic double-booked"`
surfaces verbatim. -/
theorem book_failure_shows_body (d : Draft) (res : HttpResponse)
    (h : ¬ (200 ≤ res.status ∧ res.status ≤ 299)) :
    handleBookResponse d res =
      ⟨d, .error (if res.text = "" then "Error booking appointment" else res.text), false⟩ ∧
    (res.text ≠ "" → (handleBookResponse d res).notification = .error res.text) := by
  have hok : ¬ responseOk res = true := by
    simp only [responseOk, Bool.and_eq_true, decide_eq_true_eq]
    exact h
  refine ⟨?_, ?_⟩ <;> simp [handleBookResponse, hok]
  intro hne
  simp [hne]

/-- C6 witness: a 409 with body `"Mechanic double-booked"` surfaces that
exact text and leaves the draft untouched. -/
theorem book_failure_shows_body_witness :
    handleBookResponse ⟨"Ann", "KA-01-1234", "3", some ⟨1, 0⟩, some ⟨2, 0⟩⟩
        ⟨409, "Mechanic double-booked"⟩ =
      ⟨⟨"Ann", "KA-01-1234", "3", some ⟨1, 0⟩, some ⟨2, 0⟩⟩,
       .error (if "Mechanic double-booked" = "" then "Error booking appointment"
               else "Mechanic double-booked"), false⟩ ∧
    ((("Mechanic double-booked" : String) ≠ "") →
      (handleBookResponse ⟨"Ann", "KA-01-1234", "3", some ⟨1, 0⟩, some ⟨2, 0⟩⟩
          ⟨409, "Mechanic double-booked"⟩).notification = .error "Mechanic double-booked") :=
  book_failure_shows_body ⟨"Ann", "KA-01-1234", "3", some ⟨1, 0⟩, some ⟨2, 0⟩⟩
    ⟨409, "Mechanic double-booked"⟩ (by decide)

/-- C7: whenever the GET or the body parse inside `load` raises, the
appointment list is left exactly as it was, the error is logged to the
console, and no notification is surfaced to the user. -/
theorem load_failure_keeps_list (current : Json) :
    load current .fetchExn = ⟨current, true, none⟩ ∧
    ∀ st : Nat, load current (.jsonExn st) = ⟨current, true, none⟩ :=
  ⟨rfl, fun _ => rfl⟩

/-- C8: `load` never inspects the HTTP status: any response whose body
parses as JSON — whatever its status, and whether or not the value is an
array — replaces the entire appointment list with the parsed value. -/
theorem load_ignores_status (current data : Json) (status : Nat) :
    load current (.jsonOk status data) = ⟨data, false, none⟩ :=
  rfl

/-- C9: `displayLocal` maps null and the empty string to the literal
`"Invalid Date"`; on any string containing a `'T'` it replaces the first
`'T'` by a space and truncates to 16 code units; on a `'T'`-free string it
just truncates; and `"2024-03-01T09:30:00"` renders as
`"2024-03-01 09:30"`. -/
theorem displayLocal_slices_raw_string :
    displayLocal none = "Invalid Date" ∧
    displayLocal (some "") = "Invalid Date" ∧
    (∀ a b : List Char, 'T' ∉ a →
        displayLocal (some ⟨a ++ 'T' :: b⟩) = ⟨(a ++ ' ' :: b).take 16⟩) ∧
    (∀ s : String, s ≠ "" → 'T' ∉ s.data → displayLocal (some s) = ⟨s.data.take 16⟩) ∧
    displayLocal (some "2024-03-01T09:30:00") = "2024-03-01 09:30" := by
  refine ⟨rfl, rfl, ?_, ?_, rfl⟩
  · intro a b h
    have hne : (⟨a ++ 'T' :: b⟩ : String) ≠ "" := by
      simp [String.ext_iff]
    simp only [displayLocal, hne, if_false, replaceFirstTAux_append b h]
  · intro s hs hT
    simp only [displayLocal, hs, if_false, replaceFirstTAux_of_not_mem hT]

/-- C9 witness: the general slicing conjuncts applied to concrete
strings. -/
theorem displayLocal_slices_raw_string_witness :
    displayLocal (some ⟨['a', 'b'] ++ 'T' :: ['c', 'd']⟩) = ⟨(['a', 'b'] ++ ' ' :: ['c', 'd']).take 16⟩ ∧
    displayLocal (some "nodate") = ⟨("nodate" : String).data.take 16⟩ :=
  ⟨displayLocal_slices_raw_string.2.2.1 ['a', 'b'] ['c', 'd'] (by decide),
   displayLocal_slices_raw_string.2.2.2.1 "nodate" (by decide) (by decide)⟩

/-- C10: `book` applies no numeric validation to the mechanic field: a
draft whose mechanic string is non-empty but does not parse as a number
(`Number` gives `NaN`) passes all three validations given valid dates, the
payload carries `NaN`, and `JSON.stringify` serializes that field as
`null`. -/
theorem book_mechanic_nan_posts_null (d : Draft) (now s e : JsDate)
    (hs : d.start = some s) (he : d.endD = some e)
    (hc : d.customer ≠ "") (hv : d.vehicle ≠ "") (hm : d.mechanic ≠ "")
    (hnan : jsNumber d.mechanic = .nan)
    (hnotpast : ¬ s.epochMillis < now.epochMillis)
    (hord : ¬ e.epochMillis ≤ s.epochMillis) :
    book d now = .post ⟨d.customer, d.vehicle, .nan,
                        toLocalISO d.start, toLocalISO d.endD⟩ ∧
    payloadJson ⟨d.customer, d.vehicle, .nan, toLocalISO d.start, toLocalISO d.endD⟩ =
      .obj [("customerName", .str d.customer),
            ("vehicleReg", .str d.vehicle),
            ("mechanicId", Json.null),
            ("startTime", .str (toLocalISO d.start)),
            ("endTime", .str (toLocalISO d.endD))] := by
  refine ⟨?_, rfl⟩
  simp [book, hs, he, jsValueOf, hc, hv, hm, hnotpast, hord, hnan]

/-- C10 witness: mechanic `"abc"` with otherwise valid fields. -/
theorem book_mechanic_nan_posts_null_witness :
    book ⟨"Ann", "KA-01-1234", "abc", some ⟨1704117600000, 0⟩, some ⟨1704121200000, 0⟩⟩
        ⟨1704000000000, 0⟩ =
      .post ⟨"Ann", "KA-01-1234", .nan,
             toLocalISO (some ⟨1704117600000, 0⟩), toLocalISO (some ⟨1704121200000, 0⟩)⟩ ∧
    payloadJson ⟨"Ann", "KA-01-1234", .nan,
                 toLocalISO (some ⟨1704117600000, 0⟩), toLocalISO (some ⟨1704121200000, 0⟩)⟩ =
      .obj [("customerName", .str "Ann"),
            ("vehicleReg", .str "KA-01-1234"),
            ("mechanicId", Json.null),
            ("startTime", .str (toLocalISO (some ⟨1704117600000, 0⟩))),
            ("endTime", .str (toLocalISO (some ⟨1704121200000, 0⟩)))] :=
  book_mechanic_nan_posts_null
    ⟨"Ann", "KA-01-1234", "abc", some ⟨1704117600000, 0⟩, some ⟨1704121200000, 0⟩⟩
    ⟨1704000000000, 0⟩ ⟨1704117600000, 0⟩ ⟨1704121200000, 0⟩
    rfl rfl (by decide) (by decide) (by decide) (by decide) (by decide) (by decide)

end Maple
